import Mathlib

/-!
Shallow embedding of the v0 CLI (src/index.ts, src/files.ts, src/config.ts).

Modelling conventions:
* JSON values written and read by this program are modelled by the
  inductive `Json`, restricted to the shapes the program produces
  (string fields inside an object).  `JSON.stringify` / `JSON.parse`
  are inverse on these values, so the file stores the `Json` value.
* The filesystem state touched by the program (the config file, the
  project-link marker file, and the config directory) is the structure
  `FS`.
* JavaScript string truthiness (`if (s)`) is `jsTruthy`:
  `undefined` and the empty string are falsy.
* A command handler is a pure function that returns a `HandlerRun`:
  the ordered list of observable events (console output, client
  construction, remote API calls) and how the handler ended
  (normal completion, explicit `process.exit`, or a thrown error).
* External primitives that only render values to text
  (`toLocaleDateString`, `JSON.stringify` of remote chat records) are
  passed as function parameters.
-/

/-- JSON values, restricted to the shapes this program reads and writes. -/
inductive Json where
  | str : String → Json
  | obj : List (String × Json) → Json

/-- Stored configuration (`~/.config/v0/config.json`): an optional API key. -/
structure V0Config where
  apiKey : Option String
deriving DecidableEq

/-- Project-link marker (`.v0` in the working directory). -/
structure ProjectLink where
  projectId : String
deriving DecidableEq

/-- The filesystem state the CLI touches: the config file, the project
link marker file, and whether the config directory exists. Each file
slot holds the parsed JSON value of the file, or `none` when absent. -/
structure FS where
  configFile : Option Json
  projectFile : Option Json
  configDirExists : Bool

/-- Field lookup in a JSON object (property access on the parsed value). -/
def lookupField : List (String × Json) → String → Option Json
  | [], _ => none
  | (k, v) :: rest, key => if k = key then some v else lookupField rest key

/-- Reading the `apiKey` property of a parsed config value. -/
def configOfJson : Json → V0Config
  | .obj fields =>
    { apiKey :=
        match lookupField fields "apiKey" with
        | some (.str s) => some s
        | _ => none }
  | _ => { apiKey := none }

/-- The JSON value `JSON.stringify` produces for a config object. -/
def configToJson (c : V0Config) : Json :=
  match c.apiKey with
  | some k => .obj [("apiKey", .str k)]
  | none => .obj []

/-- Embeds `readConfig` of src/config.ts: empty config when the file is
absent, else the parsed file content. -/
def readConfig (fs : FS) : V0Config :=
  match fs.configFile with
  | none => { apiKey := none }
  | some j => configOfJson j

/-- Embeds `writeConfig` of src/config.ts: creates the config directory
when missing, then overwrites the config file. -/
def writeConfig (fs : FS) (c : V0Config) : FS :=
  { fs with configDirExists := true, configFile := some (configToJson c) }

/-- The JSON value written by `writeProjectLink`. -/
def linkToJson (pid : String) : Json :=
  .obj [("projectId", .str pid)]

/-- Reading the `projectId` property of a parsed link value. -/
def linkOfJson : Json → Option ProjectLink
  | .obj fields =>
    match lookupField fields "projectId" with
    | some (.str p) => some { projectId := p }
    | _ => none
  | _ => none

/-- Embeds `readProjectLink` of src/config.ts. -/
def readProjectLink (fs : FS) : Option ProjectLink :=
  match fs.projectFile with
  | none => none
  | some j => linkOfJson j

/-- Embeds `writeProjectLink` of src/config.ts. -/
def writeProjectLink (fs : FS) (pid : String) : FS :=
  { fs with projectFile := some (linkToJson pid) }

/-- Embeds `removeProjectLink` of src/config.ts: deletes the marker file
if present, otherwise leaves the state untouched. -/
def removeProjectLink (fs : FS) : FS :=
  match fs.projectFile with
  | none => fs
  | some _ => { fs with projectFile := none }

/-- JavaScript truthiness of a possibly-undefined string: `undefined`
and the empty string are falsy; a non-empty string is kept. -/
def jsTruthy : Option String → Option String
  | some s => if s = "" then none else some s
  | none => none

/-- Errors as seen by the top-level handler wrapper: the optional
`error.error.type`, `error.error.message` and `error.message` fields of
the caught value. -/
structure CliError where
  errType : Option String
  errMsg : Option String
  msg : Option String
deriving DecidableEq

/-- The error thrown by `resolveApiKeyWithConfig` when no key is found
(a plain `Error`, so only `message` is set). -/
def noApiKeyError : CliError :=
  { errType := none, errMsg := none,
    msg := some "No API key found. Run 'v0 login' or set V0_API_KEY." }

/-- Embeds `resolveApiKeyWithConfig` of src/config.ts: a truthy
`V0_API_KEY` environment value wins, else a truthy stored `apiKey`,
else the no-API-key error. -/
def resolveApiKeyWithConfig (env : Option String) (fs : FS) : Except CliError String :=
  match jsTruthy env with
  | some k => .ok k
  | none =>
    match jsTruthy (readConfig fs).apiKey with
    | some k => .ok k
    | none => .error noApiKeyError

/-- Embeds `getClient` of src/config.ts: resolves the key and constructs
a client bound to it; the client is represented by its API key. -/
def getClient (env : Option String) (fs : FS) : Except CliError String :=
  resolveApiKeyWithConfig env fs

/-- Observable events of one handler invocation, in order: console
output lines, client construction, and remote API calls. -/
inductive Event where
  | stdoutLine : String → Event
  | stderrLine : String → Event
  | clientConstructed : String → Event
  | apiCall : String → Event
deriving DecidableEq

/-- Network-touching events: constructing a client or calling the
remote API. -/
def isNetworkEvent : Event → Bool
  | .clientConstructed _ => true
  | .apiCall _ => true
  | _ => false

/-- How a handler body ended: normal return, an explicit
`process.exit(code)`, or a thrown error to be caught by the wrapper. -/
inductive Outcome where
  | ok : Outcome
  | exited : Nat → Outcome
  | threw : CliError → Outcome
deriving DecidableEq

/-- One handler invocation: its ordered events and its outcome. -/
structure HandlerRun where
  events : List Event
  outcome : Outcome
deriving DecidableEq

/-- Rendering of a possibly-undefined value inside a JS template
literal: `undefined` renders as the text `undefined`. -/
def jsTemplate : Option String → String
  | some s => s
  | none => "undefined"

/-- Embeds the classification chain of `withErrorHandling`
(src/index.ts): switch on `error.error.type`, falling back to the best
available message string. -/
def classifyError (e : CliError) : String :=
  if e.errType = some "unauthorized_error" then
    "Not authenticated. Run 'v0 login' or set V0_API_KEY."
  else if e.errType = some "not_found_error" then
    "Not found: " ++ jsTemplate e.errMsg
  else if e.errType = some "too_many_requests_error" then
    "Rate limited. Try again shortly."
  else if e.errType = some "payload_too_large_error" then
    "Payload too large. Try reducing the number or size of files."
  else
    e.errMsg.getD (e.msg.getD "Unknown error")

/-- Embeds `withErrorHandling` of src/index.ts: a handler that returns
normally exits 0, an explicit `process.exit` keeps its code, and a
thrown error is classified, printed to stderr, and exits 1. -/
def withErrorHandling (r : HandlerRun) : List Event × Nat :=
  match r.outcome with
  | .ok => (r.events, 0)
  | .exited c => (r.events, c)
  | .threw e => (r.events ++ [.stderrLine (classifyError e)], 1)

/-- Embeds JavaScript `String.prototype.trim`: strip whitespace from
both ends. -/
def jsTrim (s : String) : String :=
  ⟨((s.toList.dropWhile Char.isWhitespace).reverse.dropWhile Char.isWhitespace).reverse⟩

/-- Result of a handler that also mutates the local filesystem. -/
structure CmdRun where
  run : HandlerRun
  fs : FS

/-- Embeds the `login` action of src/index.ts: read a line, trim it,
reject an empty key with exit 1, otherwise construct a client from the
entered key and validate it with `user.get`; only on successful
validation is the key merged into the stored config. `userGet` is the
remote validation oracle. -/
def login (input : String) (fs : FS)
    (userGet : String → Except CliError Unit) : CmdRun :=
  let apiKey := jsTrim input
  if apiKey = "" then
    { run := { events := [.stderrLine "API key cannot be empty"], outcome := .exited 1 },
      fs := fs }
  else
    match userGet apiKey with
    | .error e =>
      { run := { events := [.clientConstructed apiKey, .apiCall "user.get"],
                 outcome := .threw e },
        fs := fs }
    | .ok _ =>
      let config := readConfig fs
      let config2 : V0Config := { config with apiKey := some apiKey }
      { run := { events := [.clientConstructed apiKey, .apiCall "user.get",
                            .stdoutLine "Successfully authenticated!"],
                 outcome := .ok },
        fs := writeConfig fs config2 }

/-- Embeds the `logout` action of src/index.ts: read the config, delete
the `apiKey` property, and write the config back unconditionally. -/
def logout (fs : FS) : CmdRun :=
  let config := readConfig fs
  let config2 : V0Config := { config with apiKey := none }
  { run := { events := [.stdoutLine "Logged out successfully"], outcome := .ok },
    fs := writeConfig fs config2 }

/-- Embeds the `chat delete` action of src/index.ts: acquire a client,
call `chats.delete`, print a confirmation. `del` is the remote oracle. -/
def chatDelete (chatId : String) (env : Option String) (fs : FS)
    (del : String → String → Except CliError Unit) : HandlerRun :=
  match getClient env fs with
  | .error e => { events := [], outcome := .threw e }
  | .ok key =>
    match del key chatId with
    | .error e =>
      { events := [.clientConstructed key, .apiCall "chats.delete"],
        outcome := .threw e }
    | .ok _ =>
      { events := [.clientConstructed key, .apiCall "chats.delete",
                   .stdoutLine ("Chat " ++ chatId ++ " deleted")],
        outcome := .ok }

/-- A remote chat summary as consumed by `chat list`. -/
structure Chat where
  id : String
  name : String
  favorite : Bool
  privacy : String
  createdAt : String
deriving DecidableEq

/-- Options of `chat list`: `--favorites`, `--limit` (parsed integer),
`--json`. -/
structure ListOpts where
  favorites : Bool
  limit : Option Int
  json : Bool

/-- Query sent to `chats.find`. -/
structure FindQuery where
  limit : Option Int
  favorite : Option Bool
deriving DecidableEq

/-- JavaScript truthiness of a possibly-undefined number: `undefined`
and `0` are falsy. -/
def jsTruthyInt : Option Int → Option Int
  | some n => if n = 0 then none else some n
  | none => none

/-- Embeds the query construction of `chat list`: `limit` and
`favorite` are set only when the corresponding option is truthy. -/
def findQueryOfOpts (opts : ListOpts) : FindQuery :=
  { limit := jsTruthyInt opts.limit,
    favorite := if opts.favorites then some true else none }

/-- Embeds the pretty one-line rendering of a chat in `chat list`;
`fmtDate` is the runtime `toLocaleDateString`. -/
def formatChatLine (fmtDate : String → String) (c : Chat) : String :=
  c.id ++ " - " ++ c.name
    ++ (if c.favorite then " ⭐" else "")
    ++ (if c.privacy = "private" then " 🔒" else "")
    ++ " (" ++ fmtDate c.createdAt ++ ")"

/-- Embeds the `chat list` action of src/index.ts. `find` is the remote
oracle; its payload is the possibly-undefined `data` array of the
response. `stringify` is the runtime `JSON.stringify` for the `--json`
path. -/
def chatList (opts : ListOpts) (env : Option String) (fs : FS)
    (find : String → FindQuery → Except CliError (Option (List Chat)))
    (fmtDate : String → String) (stringify : List Chat → String) : HandlerRun :=
  match getClient env fs with
  | .error e => { events := [], outcome := .threw e }
  | .ok key =>
    match find key (findQueryOfOpts opts) with
    | .error e =>
      { events := [.clientConstructed key, .apiCall "chats.find"],
        outcome := .threw e }
    | .ok data =>
      let chats := data.getD []
      let ev0 : List Event := [.clientConstructed key, .apiCall "chats.find"]
      if opts.json then
        { events := ev0 ++ [.stdoutLine (stringify chats)], outcome := .ok }
      else if chats.length = 0 then
        { events := ev0 ++ [.stdoutLine "No chats found"], outcome := .ok }
      else
        { events := ev0 ++ chats.map (fun c => .stdoutLine (formatChatLine fmtDate c)),
          outcome := .ok }

/-- A collected local file: its path and its full text content
(src/files.ts). -/
structure FileContent where
  name : String
  content : String
deriving DecidableEq

/-- Embeds JavaScript `String.prototype.includes`: substring
containment. -/
def jsIncludes (s sub : String) : Bool :=
  decide (sub.toList <:+: s.toList)

/-- Embeds the hardcoded exclusion of src/files.ts: skip a path that
contains `node_modules/` or `.git/` as a substring. -/
def excludedPath (file : String) : Bool :=
  jsIncludes file "node_modules/" || jsIncludes file ".git/"

/-- Embeds the scan loop body of `collectFiles` for one pattern: walk
the directory listing `tree` in traversal order, keep entries matched by
the pattern (`m pat`), skip excluded paths, skip already-seen paths, and
append survivors to the accumulator (seen set, collected files). -/
def scanTree (m : String → String → Bool) (pat : String) :
    List FileContent → List String × List FileContent → List String × List FileContent
  | [], st => st
  | f :: rest, st =>
    if m pat f.name then
      if excludedPath f.name then
        scanTree m pat rest st
      else if f.name ∈ st.1 then
        scanTree m pat rest st
      else
        scanTree m pat rest (st.1 ++ [f.name], st.2 ++ [f])
    else
      scanTree m pat rest st

/-- Outer loop of `collectFiles`: fold the scan over all patterns,
threading the seen set and the collected files. -/
def collectFilesGo (m : String → String → Bool) (tree : List FileContent) :
    List String → List String × List FileContent → List String × List FileContent
  | [], st => st
  | pat :: rest, st => collectFilesGo m tree rest (scanTree m pat tree st)

/-- Embeds `collectFiles` of src/files.ts. `m` is the glob-match
primitive (pattern, path) and `tree` the working tree listing in
traversal order. -/
def collectFiles (m : String → String → Bool) (tree : List FileContent)
    (patterns : List String) : List FileContent :=
  (collectFilesGo m tree patterns ([], [])).2

/-- A path contains `seg` as a directory segment: `seg` occurs between
path separators (or at the start), followed by a separator. -/
def hasDirSegment (seg path : String) : Prop :=
  ∃ pre post, (pre = [] ∨ ∃ pre2, pre = pre2 ++ ['/']) ∧
    path.toList = pre ++ seg.toList ++ '/' :: post

/-- A remote chat detail as returned by `chats.init` and
`chats.sendMessage`; only the id is consumed. -/
structure ChatDetail where
  id : String
deriving DecidableEq

/-- Result of an SDK call that may return a value or a stream. -/
inductive SdkResult (α : Type) where
  | value : α → SdkResult α
  | stream : SdkResult α
deriving DecidableEq

/-- The error thrown on an unexpected streaming response. -/
def streamError : CliError :=
  { errType := none, errMsg := none, msg := some "Unexpected stream response" }

/-- Options of `chat init`: `--message`, `--no-project` (as the
`project` flag, `true` by default), `--json`. -/
structure InitOpts where
  message : Option String
  project : Bool
  json : Bool

/-- Request sent to `chats.init`. -/
structure InitRequest where
  files : List FileContent
  projectId : Option String
deriving DecidableEq

/-- Final output block of `chat init` after all remote calls succeeded;
`renderJson` is the runtime `JSON.stringify` of the result plus URL. -/
def finishInit (opts : InitOpts) (files : List FileContent) (result : ChatDetail)
    (renderJson : ChatDetail → String → String) (ev : List Event) : HandlerRun :=
  let url := "https://v0.dev/chat/" ++ result.id
  if opts.json then
    { events := ev ++ [.stdoutLine (renderJson result url)], outcome := .ok }
  else
    { events := ev ++ [.stdoutLine ("Chat initialized: " ++ result.id),
                       .stdoutLine ("Files attached: " ++ toString files.length),
                       .stdoutLine url],
      outcome := .ok }

/-- Embeds the `chat init` action of src/index.ts: guard on zero
patterns, collect files, guard on zero files, then acquire a client,
attach the linked project id when truthy, call `chats.init`, optionally
send the follow-up `--message`, and print the result. `callInit` and
`send` are the remote oracles. -/
def chatInit (patterns : List String) (opts : InitOpts)
    (m : String → String → Bool) (tree : List FileContent)
    (env : Option String) (fs : FS)
    (callInit : String → InitRequest → Except CliError (SdkResult ChatDetail))
    (send : String → String → String → Except CliError (SdkResult ChatDetail))
    (renderJson : ChatDetail → String → String) : HandlerRun :=
  if patterns.length = 0 then
    { events := [.stderrLine "No file patterns provided"], outcome := .exited 1 }
  else
    let files := collectFiles m tree patterns
    if files.length = 0 then
      { events := [.stderrLine "No files found matching patterns"], outcome := .exited 1 }
    else
      match getClient env fs with
      | .error e => { events := [], outcome := .threw e }
      | .ok key =>
        let link := if opts.project then readProjectLink fs else none
        let req : InitRequest :=
          { files := files, projectId := jsTruthy (link.map ProjectLink.projectId) }
        let ev0 : List Event := [.clientConstructed key, .apiCall "chats.init"]
        match callInit key req with
        | .error e => { events := ev0, outcome := .threw e }
        | .ok .stream => { events := ev0, outcome := .threw streamError }
        | .ok (.value result) =>
          match jsTruthy opts.message with
          | some msgText =>
            (match send key result.id msgText with
             | .error e =>
               { events := ev0 ++ [.apiCall "chats.sendMessage"], outcome := .threw e }
             | .ok .stream =>
               { events := ev0 ++ [.apiCall "chats.sendMessage"],
                 outcome := .threw streamError }
             | .ok (.value _) =>
               finishInit opts files result renderJson (ev0 ++ [.apiCall "chats.sendMessage"]))
          | none => finishInit opts files result renderJson ev0

/-- Empty local filesystem state: no config file, no link file, no
config directory. -/
def fsEmpty : FS :=
  { configFile := none, projectFile := none, configDirExists := false }

/-- A filesystem state whose config file stores the key `config_key`. -/
def fsWithKey : FS :=
  { configFile := some (Json.obj [("apiKey", Json.str "config_key")]),
    projectFile := none, configDirExists := true }

/-- Remote oracle that reports every chat as missing. -/
def delNotFound : String → String → Except CliError Unit :=
  fun _ chatId =>
    .error { errType := some "not_found_error",
             errMsg := some ("Chat " ++ chatId ++ " not found"), msg := none }

/-- Remote oracle whose chat listing is empty. -/
def findEmptyOracle : String → FindQuery → Except CliError (Option (List Chat)) :=
  fun _ _ => .ok (some [])

/-- Remote validation oracle that rejects every key. -/
def userGetReject : String → Except CliError Unit :=
  fun _ =>
    .error { errType := some "unauthorized_error",
             errMsg := some "Unauthorized", msg := none }

/-- Glob primitive that matches every path. -/
def matchAll : String → String → Bool := fun _ _ => true

/-- Glob primitive that matches no path. -/
def matchNone : String → String → Bool := fun _ _ => false

/-- A small working tree: one ordinary source file and one file inside
`node_modules/`. -/
def treeEx : List FileContent :=
  [{ name := "src/a.ts", content := "A" },
   { name := "node_modules/x.ts", content := "B" }]

/-- Remote `chats.init` oracle that always succeeds. -/
def initOracleOk : String → InitRequest → Except CliError (SdkResult ChatDetail) :=
  fun _ _ => .ok (.value { id := "chat_1" })

/-- Remote `chats.sendMessage` oracle that always succeeds. -/
def sendOracleOk : String → String → String → Except CliError (SdkResult ChatDetail) :=
  fun _ _ _ => .ok (.value { id := "chat_1" })

/-- Default `chat init` options: no message, project attachment on,
pretty output. -/
def initOptsDefault : InitOpts := { message := none, project := true, json := false }

/-- Options of a `chat list --json` invocation. -/
def listOptsJson : ListOpts := { favorites := false, limit := none, json := true }

/-- Options of a plain `chat list` invocation. -/
def listOptsPlain : ListOpts := { favorites := false, limit := none, json := false }

/-- Invariant of the `collectFiles` accumulator: the seen set is
exactly the collected names, the names are deduplicated, and every
collected file is a non-excluded entry of the tree. -/
def CollectInv (tree : List FileContent) (st : List String × List FileContent) : Prop :=
  st.1 = st.2.map FileContent.name ∧ st.1.Nodup
    ∧ ∀ f ∈ st.2, excludedPath f.name = false ∧ f ∈ tree

/-- The non-excluded matches of all patterns, concatenated in pattern
order with tree-traversal order inside each pattern: the exact sequence
of candidates the source loop inspects after its exclusion check. -/
def matchedCandidates (m : String → String → Bool) (tree : List FileContent)
    (patterns : List String) : List FileContent :=
  (patterns.map (fun pat =>
    tree.filter (fun f => m pat f.name && !(excludedPath f.name)))).flatten

/-- Reference deduplication following the words of the spec: walk the
candidate sequence in order and keep an entry exactly when its name has
not been kept before, so for each name the first occurrence wins. -/
def dedupFirst (seen : List String) : List FileContent → List FileContent
  | [] => []
  | f :: rest =>
    if f.name ∈ seen then dedupFirst seen rest
    else f :: dedupFirst (seen ++ [f.name]) rest

/-- Round trip of the config store: writing a config and reading it
back preserves the API key (helper shared by several theorems). -/
theorem readConfig_writeConfig_key (fs : FS) (c : V0Config) :
    (readConfig (writeConfig fs c)).apiKey = c.apiKey := by
  cases h : c.apiKey <;>
    simp [readConfig, writeConfig, configToJson, configOfJson, lookupField, h]

/-- C5: for every config value, `writeConfig` followed by `readConfig`
returns the stored API key exactly. -/
theorem config_roundtrip (fs : FS) (c : V0Config) :
    (readConfig (writeConfig fs c)).apiKey = c.apiKey :=
  readConfig_writeConfig_key fs c

/-- C6: `writeProjectLink` followed by `readProjectLink` returns the
written project id; `removeProjectLink` followed by `readProjectLink`
returns absent; and `removeProjectLink` is a no-op when the marker file
does not exist. -/
theorem projectLink_roundtrip (fs : FS) (pid : String) :
    readProjectLink (writeProjectLink fs pid) = some { projectId := pid }
      ∧ readProjectLink (removeProjectLink fs) = none
      ∧ (fs.projectFile = none → removeProjectLink fs = fs) := by
  refine ⟨?_, ?_, ?_⟩
  · simp [readProjectLink, writeProjectLink, linkToJson, linkOfJson, lookupField]
  · cases h : fs.projectFile <;> simp [readProjectLink, removeProjectLink, h]
  · intro h; simp [removeProjectLink, h]

/-- Witness for C6 at a concrete state and id. -/
theorem projectLink_roundtrip_witness :
    readProjectLink (writeProjectLink fsEmpty "proj_123") = some { projectId := "proj_123" }
      ∧ removeProjectLink fsEmpty = fsEmpty :=
  ⟨(projectLink_roundtrip fsEmpty "proj_123").1,
   (projectLink_roundtrip fsEmpty "proj_123").2.2 rfl⟩

/-- C1 counterexample: with `V0_API_KEY` set to the empty string and a
stored key present, resolution returns the stored key, not the
environment value, so a set environment variable does not always win. -/
theorem resolveApiKey_env_counterexample :
    resolveApiKeyWithConfig (some "") fsWithKey = .ok "config_key"
      ∧ resolveApiKeyWithConfig (some "") fsWithKey ≠ .ok "" := by
  constructor
  · rfl
  · rw [show resolveApiKeyWithConfig (some "") fsWithKey = .ok "config_key" from rfl]
    simp

/-- C1 (amended): a non-empty `V0_API_KEY` value is used regardless of
the stored config; when the environment value is absent or empty, a
non-empty stored `apiKey` is used; when both are absent or empty the
resolution fails with the no-API-key error and `getClient` fails the
same way, producing no client. -/
theorem resolveApiKey_precedence (env : Option String) (fs : FS) :
    (∀ k, env = some k → k ≠ "" → resolveApiKeyWithConfig env fs = .ok k)
      ∧ (jsTruthy env = none →
          ∀ k, (readConfig fs).apiKey = some k → k ≠ "" →
            resolveApiKeyWithConfig env fs = .ok k)
      ∧ (jsTruthy env = none → jsTruthy (readConfig fs).apiKey = none →
          resolveApiKeyWithConfig env fs = .error noApiKeyError
            ∧ getClient env fs = .error noApiKeyError) := by
  refine ⟨?_, ?_, ?_⟩
  · intro k hk hne
    subst hk
    simp [resolveApiKeyWithConfig, jsTruthy, hne]
  · intro henv k hk hne
    unfold resolveApiKeyWithConfig
    rw [henv, hk]
    simp [jsTruthy, hne]
  · intro henv hcfg
    have h : resolveApiKeyWithConfig env fs = .error noApiKeyError := by
      unfold resolveApiKeyWithConfig
      rw [henv, hcfg]
    exact ⟨h, h⟩

/-- Witness for C1 (amended) at concrete states. -/
theorem resolveApiKey_precedence_witness :
    resolveApiKeyWithConfig (some "env_key") fsWithKey = .ok "env_key"
      ∧ resolveApiKeyWithConfig none fsEmpty = .error noApiKeyError := by
  refine ⟨(resolveApiKey_precedence (some "env_key") fsWithKey).1 "env_key" rfl (by decide), ?_⟩
  exact ((resolveApiKey_precedence none fsEmpty).2.2 rfl rfl).1

/-- C9 counterexample: with no config file and no config directory,
`logout` is not a no-op: it creates the directory and writes an empty
config file. -/
theorem logout_not_noop_counterexample :
    fsEmpty.configFile = none ∧ fsEmpty.configDirExists = false
      ∧ (logout fsEmpty).fs.configFile = some (Json.obj [])
      ∧ (logout fsEmpty).fs.configDirExists = true
      ∧ (logout fsEmpty).fs.configFile ≠ fsEmpty.configFile := by
  refine ⟨rfl, rfl, rfl, rfl, ?_⟩
  rw [show (logout fsEmpty).fs.configFile = some (Json.obj []) from rfl]
  simp [fsEmpty]

/-- C9 (amended): `logout` always leaves the stored config without an
API key, so when no key was stored the resolved credential is unchanged
(still absent) — but the config file itself is rewritten (and the
directory created), so the raw file state may change. -/
theorem logout_removes_key (fs : FS) :
    (readConfig (logout fs).fs).apiKey = none
      ∧ resolveApiKeyWithConfig none (logout fs).fs = .error noApiKeyError
      ∧ (logout fs).run.outcome = .ok := by
  have h1 : (readConfig (logout fs).fs).apiKey = none :=
    readConfig_writeConfig_key fs { readConfig fs with apiKey := none }
  refine ⟨h1, ?_, rfl⟩
  unfold resolveApiKeyWithConfig
  rw [h1]
  rfl

/-- C4: login is side-effect-guarded: a failed remote validation (or an
empty key) leaves the stored config untouched; a successful validation
of a non-empty key persists exactly that key; and any change to the
stored state implies the validation succeeded. -/
theorem login_guarded (input : String) (fs : FS)
    (userGet : String → Except CliError Unit) :
    (∀ e, userGet (jsTrim input) = .error e → (login input fs userGet).fs = fs)
      ∧ (jsTrim input ≠ "" → ∀ u, userGet (jsTrim input) = .ok u →
          (readConfig (login input fs userGet).fs).apiKey = some (jsTrim input))
      ∧ ((login input fs userGet).fs ≠ fs → ∃ u, userGet (jsTrim input) = .ok u) := by
  by_cases hk : jsTrim input = ""
  · refine ⟨?_, ?_, ?_⟩
    · intro e _
      simp [login, hk]
    · intro hne
      exact absurd hk hne
    · intro hch
      exact absurd (by simp [login, hk]) hch
  · cases h : userGet (jsTrim input) with
    | error e =>
      refine ⟨?_, ?_, ?_⟩
      · intro e2 _
        simp [login, hk, h]
      · intro _ u hu
        exact Except.noConfusion hu
      · intro hch
        exact absurd (by simp [login, hk, h]) hch
    | ok u =>
      refine ⟨?_, ?_, ?_⟩
      · intro e he
        exact Except.noConfusion he
      · intro _ u2 _
        have hfs : (login input fs userGet).fs =
            writeConfig fs { readConfig fs with apiKey := some (jsTrim input) } := by
          simp [login, hk, h]
        rw [hfs]
        exact readConfig_writeConfig_key fs _
      · intro _
        exact ⟨u, rfl⟩

/-- Witness for C4: a rejected key at a concrete state leaves the
config untouched. -/
theorem login_guarded_witness :
    (login "  bad_key  " fsWithKey userGetReject).fs = fsWithKey :=
  (login_guarded "  bad_key  " fsWithKey userGetReject).1
    { errType := some "unauthorized_error", errMsg := some "Unauthorized", msg := none }
    rfl

/-- C10: when the entered line trims to the empty string, `login`
prints an error, exits with code 1, performs no client construction or
remote call, and leaves the stored config unchanged. -/
theorem login_empty_key (input : String) (fs : FS)
    (userGet : String → Except CliError Unit) (h : jsTrim input = "") :
    login input fs userGet =
        { run := { events := [.stderrLine "API key cannot be empty"],
                   outcome := .exited 1 },
          fs := fs }
      ∧ (∀ e ∈ (login input fs userGet).run.events, isNetworkEvent e = false)
      ∧ (withErrorHandling (login input fs userGet).run).2 = 1 := by
  have hrun : login input fs userGet =
      { run := { events := [.stderrLine "API key cannot be empty"],
                 outcome := .exited 1 },
        fs := fs } := by
    simp [login, h]
  refine ⟨hrun, ?_, ?_⟩
  · intro e he
    rw [hrun] at he
    simp at he
    subst he
    rfl
  · rw [hrun]
    rfl

/-- Witness for C10: an all-whitespace entered line. -/
theorem login_empty_key_witness :
    login "   " fsWithKey userGetReject =
        { run := { events := [.stderrLine "API key cannot be empty"],
                   outcome := .exited 1 },
          fs := fsWithKey }
      ∧ (withErrorHandling (login "   " fsWithKey userGetReject).run).2 = 1 := by
  have h := login_empty_key "   " fsWithKey userGetReject (by decide)
  exact ⟨h.1, h.2.2⟩

/-- C2: when a wrapped handler throws an error tagged
`not_found_error`, the wrapper prints `Not found: <message>` and the
process exits with code 1; any identifier contained in the remote
message is contained in the printed line. -/
theorem wrapper_not_found (r : HandlerRun) (e : CliError)
    (hout : r.outcome = .threw e) (htype : e.errType = some "not_found_error") :
    withErrorHandling r
        = (r.events ++ [.stderrLine ("Not found: " ++ jsTemplate e.errMsg)], 1)
      ∧ ∀ idStr : String, idStr.toList <:+: (jsTemplate e.errMsg).toList →
          idStr.toList <:+: ("Not found: " ++ jsTemplate e.errMsg).toList := by
  constructor
  · unfold withErrorHandling
    rw [hout]
    show (r.events ++ [Event.stderrLine (classifyError e)], 1) = _
    unfold classifyError
    rw [htype]
    rw [if_neg (by decide), if_pos rfl]
  · intro idStr hid
    have hsplit : ("Not found: " ++ jsTemplate e.errMsg).toList
        = "Not found: ".toList ++ (jsTemplate e.errMsg).toList := String.data_append _ _
    rw [hsplit]
    exact hid.trans (List.suffix_append _ _).isInfix

/-- Witness for C2: a classified not-found error during
`chat delete missing_id` prints the message with the identifier and
exits 1. -/
theorem wrapper_not_found_witness :
    withErrorHandling (chatDelete "missing_id" (some "key123") fsEmpty delNotFound)
        = ((chatDelete "missing_id" (some "key123") fsEmpty delNotFound).events
            ++ [.stderrLine ("Not found: " ++ jsTemplate (some "Chat missing_id not found"))], 1)
      ∧ "missing_id".toList
          <:+: ("Not found: " ++ jsTemplate (some "Chat missing_id not found")).toList := by
  have h := wrapper_not_found
    (chatDelete "missing_id" (some "key123") fsEmpty delNotFound)
    { errType := some "not_found_error",
      errMsg := some "Chat missing_id not found", msg := none }
    (by decide) rfl
  exact ⟨h.1, h.2 "missing_id" (by decide)⟩

/-- C3: when the collected file list is empty, `chat init` exits with
code 1 before any network activity: no client construction and no
remote call appears among its events. -/
theorem chatInit_no_files (patterns : List String) (opts : InitOpts)
    (m : String → String → Bool) (tree : List FileContent)
    (env : Option String) (fs : FS)
    (callInit : String → InitRequest → Except CliError (SdkResult ChatDetail))
    (send : String → String → String → Except CliError (SdkResult ChatDetail))
    (renderJson : ChatDetail → String → String)
    (h : collectFiles m tree patterns = []) :
    (chatInit patterns opts m tree env fs callInit send renderJson).outcome = .exited 1
      ∧ (∀ e ∈ (chatInit patterns opts m tree env fs callInit send renderJson).events,
          isNetworkEvent e = false)
      ∧ (withErrorHandling (chatInit patterns opts m tree env fs callInit send renderJson)).2
          = 1 := by
  by_cases hp : patterns.length = 0
  · have hrun : chatInit patterns opts m tree env fs callInit send renderJson
        = { events := [.stderrLine "No file patterns provided"], outcome := .exited 1 } := by
      simp [chatInit, hp]
    refine ⟨by rw [hrun], ?_, by rw [hrun]; rfl⟩
    intro e he
    rw [hrun] at he
    simp at he
    subst he
    rfl
  · have hrun : chatInit patterns opts m tree env fs callInit send renderJson
        = { events := [.stderrLine "No files found matching patterns"],
            outcome := .exited 1 } := by
      simp [chatInit, hp, h]
    refine ⟨by rw [hrun], ?_, by rw [hrun]; rfl⟩
    intro e he
    rw [hrun] at he
    simp at he
    subst he
    rfl

/-- Witness for C3: a pattern matching no file at a concrete tree. -/
theorem chatInit_no_files_witness :
    (chatInit ["*.md"] initOptsDefault matchNone treeEx none fsEmpty
        initOracleOk sendOracleOk (fun _ url => url)).outcome = .exited 1
      ∧ (withErrorHandling (chatInit ["*.md"] initOptsDefault matchNone treeEx none fsEmpty
          initOracleOk sendOracleOk (fun _ url => url))).2 = 1 := by
  have h := chatInit_no_files ["*.md"] initOptsDefault matchNone treeEx none fsEmpty
    initOracleOk sendOracleOk (fun _ url => url) (by decide)
  exact ⟨h.1, h.2.2⟩

/-- C8 counterexample: a `chat list --json` run with an empty result
prints the JSON rendering of the empty list, not the
"No chats found" message. -/
theorem chatList_json_empty_counterexample :
    (chatList listOptsJson (some "key123") fsEmpty findEmptyOracle
        (fun s => s) (fun _ => "[]")).events
      = [.clientConstructed "key123", .apiCall "chats.find", .stdoutLine "[]"]
    ∧ Event.stdoutLine "No chats found"
        ∉ (chatList listOptsJson (some "key123") fsEmpty findEmptyOracle
            (fun s => s) (fun _ => "[]")).events := by
  constructor
  · rfl
  · rw [show (chatList listOptsJson (some "key123") fsEmpty findEmptyOracle
        (fun s => s) (fun _ => "[]")).events
      = [.clientConstructed "key123", .apiCall "chats.find", .stdoutLine "[]"] from rfl]
    decide

/-- C8 (amended): every `chat list` run without `--json` whose result
set is empty prints exactly the distinct "No chats found" message and
exits 0. -/
theorem chatList_empty_message (opts : ListOpts) (env : Option String) (fs : FS)
    (find : String → FindQuery → Except CliError (Option (List Chat)))
    (fmtDate : String → String) (stringify : List Chat → String)
    (key : String) (data : Option (List Chat))
    (hjson : opts.json = false)
    (hkey : getClient env fs = .ok key)
    (hfind : find key (findQueryOfOpts opts) = .ok data)
    (hempty : data.getD [] = []) :
    chatList opts env fs find fmtDate stringify
        = { events := [.clientConstructed key, .apiCall "chats.find",
                       .stdoutLine "No chats found"],
            outcome := .ok }
      ∧ (withErrorHandling (chatList opts env fs find fmtDate stringify)).2 = 0 := by
  have hrun : chatList opts env fs find fmtDate stringify
      = { events := [.clientConstructed key, .apiCall "chats.find",
                     .stdoutLine "No chats found"],
          outcome := .ok } := by
    unfold chatList
    simp only [hkey, hfind]
    simp [hjson, hempty]
  exact ⟨hrun, by rw [hrun]; rfl⟩

/-- Witness for C8 (amended): a plain `chat list` with an empty remote
result at a concrete state. -/
theorem chatList_empty_message_witness :
    chatList listOptsPlain (some "key123") fsEmpty findEmptyOracle
        (fun s => s) (fun _ => "[]")
      = { events := [.clientConstructed "key123", .apiCall "chats.find",
                     .stdoutLine "No chats found"],
          outcome := .ok } :=
  (chatList_empty_message listOptsPlain (some "key123") fsEmpty findEmptyOracle
    (fun s => s) (fun _ => "[]") "key123" (some []) rfl rfl rfl rfl).1

/-- Preservation of the collector invariant by the scan of one pattern
(helper for the collectFiles properties). -/
theorem scanTree_inv (m : String → String → Bool) (pat : String)
    (tree : List FileContent) :
    ∀ (sub : List FileContent) (st : List String × List FileContent),
      (∀ f ∈ sub, f ∈ tree) → CollectInv tree st →
      CollectInv tree (scanTree m pat sub st) := by
  intro sub
  induction sub with
  | nil =>
    intro st _ hst
    exact hst
  | cons f rest ih =>
    intro st hsub hst
    have hrest : ∀ g ∈ rest, g ∈ tree :=
      fun g hg => hsub g (List.mem_cons_of_mem f hg)
    unfold scanTree
    cases hm : m pat f.name with
    | false =>
      simp only [hm, Bool.false_eq_true, if_false]
      exact ih st hrest hst
    | true =>
      simp only [hm, if_true]
      cases hex : excludedPath f.name with
      | true =>
        simp only [hex, if_true]
        exact ih st hrest hst
      | false =>
        simp only [hex, Bool.false_eq_true, if_false]
        by_cases hseen : f.name ∈ st.1
        · rw [if_pos hseen]
          exact ih st hrest hst
        · rw [if_neg hseen]
          apply ih _ hrest
          obtain ⟨h1, h2, h3⟩ := hst
          refine ⟨?_, ?_, ?_⟩
          · rw [List.map_append]
            simp [h1]
          · rw [List.nodup_append]
            refine ⟨h2, List.nodup_singleton _, ?_⟩
            intro a ha hb
            simp at hb
            subst hb
            exact hseen ha
          · intro g hg
            rcases List.mem_append.mp hg with hg | hg
            · exact h3 g hg
            · simp at hg
              subst hg
              exact ⟨hex, hsub _ (List.mem_cons_self _ _)⟩

/-- Preservation of the collector invariant by the outer pattern loop
(helper for the collectFiles properties). -/
theorem collectFilesGo_inv (m : String → String → Bool) (tree : List FileContent) :
    ∀ (patterns : List String) (st : List String × List FileContent),
      CollectInv tree st → CollectInv tree (collectFilesGo m tree patterns st) := by
  intro patterns
  induction patterns with
  | nil =>
    intro st h
    exact h
  | cons pat rest ih =>
    intro st h
    exact ih _ (scanTree_inv m pat tree tree st (fun _ hf => hf) h)

/-- Unfolding equation of `dedupFirst` on a non-empty candidate list
(helper for the collectFiles properties). -/
theorem dedupFirst_cons (seen : List String) (f : FileContent) (rest : List FileContent) :
    dedupFirst seen (f :: rest)
      = if f.name ∈ seen then dedupFirst seen rest
        else f :: dedupFirst (seen ++ [f.name]) rest := rfl

/-- The scan of one pattern appends exactly the first-occurrence
deduplication of that pattern's non-excluded matches (helper for the
collectFiles properties). -/
theorem scanTree_eq_dedupFirst (m : String → String → Bool) (pat : String) :
    ∀ (sub : List FileContent) (seen : List String) (acc : List FileContent),
      scanTree m pat sub (seen, acc)
        = (seen ++ (dedupFirst seen
              (sub.filter (fun f => m pat f.name && !(excludedPath f.name)))).map
              FileContent.name,
           acc ++ dedupFirst seen
              (sub.filter (fun f => m pat f.name && !(excludedPath f.name)))) := by
  intro sub
  induction sub with
  | nil =>
    intro seen acc
    simp [scanTree, dedupFirst]
  | cons f rest ih =>
    intro seen acc
    unfold scanTree
    cases hm : m pat f.name with
    | false =>
      simp only [List.filter_cons, hm, Bool.false_and, Bool.false_eq_true, if_false]
      exact ih seen acc
    | true =>
      cases hex : excludedPath f.name with
      | true =>
        simp only [List.filter_cons, hm, hex, Bool.true_and, Bool.not_true,
          Bool.false_eq_true, if_false, if_true]
        exact ih seen acc
      | false =>
        simp only [List.filter_cons, hm, hex, Bool.true_and, Bool.not_false,
          Bool.false_eq_true, if_false, if_true]
        by_cases hseen : f.name ∈ seen
        · rw [if_pos hseen, dedupFirst_cons, if_pos hseen]
          exact ih seen acc
        · rw [if_neg hseen, dedupFirst_cons, if_neg hseen]
          rw [ih (seen ++ [f.name]) (acc ++ [f])]
          simp [List.append_assoc]

/-- First-occurrence deduplication distributes over concatenation,
threading the names kept so far (helper for the collectFiles
properties). -/
theorem dedupFirst_append :
    ∀ (A B : List FileContent) (seen : List String),
      dedupFirst seen (A ++ B)
        = dedupFirst seen A
            ++ dedupFirst (seen ++ (dedupFirst seen A).map FileContent.name) B := by
  intro A
  induction A with
  | nil =>
    intro B seen
    simp [dedupFirst]
  | cons f rest ih =>
    intro B seen
    by_cases h : f.name ∈ seen
    · rw [List.cons_append, dedupFirst_cons, if_pos h, dedupFirst_cons, if_pos h]
      exact ih B seen
    · rw [List.cons_append, dedupFirst_cons, if_neg h, dedupFirst_cons, if_neg h]
      rw [ih B (seen ++ [f.name])]
      simp [List.append_assoc]

/-- The whole pattern loop appends exactly the first-occurrence
deduplication of the full candidate sequence (helper for the
collectFiles properties). -/
theorem collectFilesGo_eq_dedupFirst (m : String → String → Bool)
    (tree : List FileContent) :
    ∀ (patterns : List String) (seen : List String) (acc : List FileContent),
      collectFilesGo m tree patterns (seen, acc)
        = (seen ++ (dedupFirst seen (matchedCandidates m tree patterns)).map
              FileContent.name,
           acc ++ dedupFirst seen (matchedCandidates m tree patterns)) := by
  intro patterns
  induction patterns with
  | nil =>
    intro seen acc
    simp [collectFilesGo, matchedCandidates, dedupFirst]
  | cons pat rest ih =>
    intro seen acc
    have hcand : matchedCandidates m tree (pat :: rest)
        = tree.filter (fun f => m pat f.name && !(excludedPath f.name))
            ++ matchedCandidates m tree rest := by
      simp [matchedCandidates]
    unfold collectFilesGo
    rw [scanTree_eq_dedupFirst, ih, hcand, dedupFirst_append]
    simp [List.append_assoc]

/-- An entry kept by first-occurrence deduplication is the first
element of the input bearing its name (helper for the collectFiles
properties). -/
theorem dedupFirst_find? :
    ∀ (l : List FileContent) (seen : List String) (f : FileContent),
      f ∈ dedupFirst seen l →
        f.name ∉ seen ∧ l.find? (fun g => g.name == f.name) = some f := by
  intro l
  induction l with
  | nil =>
    intro seen f h
    simp [dedupFirst] at h
  | cons g rest ih =>
    intro seen f h
    by_cases hg : g.name ∈ seen
    · rw [dedupFirst_cons, if_pos hg] at h
      obtain ⟨h1, h2⟩ := ih seen f h
      refine ⟨h1, ?_⟩
      have hne : (g.name == f.name) = false := by
        rw [beq_eq_false_iff_ne]
        intro heq
        exact h1 (heq ▸ hg)
      rw [List.find?_cons_of_neg _ (by simp [hne]), h2]
    · rw [dedupFirst_cons, if_neg hg] at h
      rcases List.mem_cons.mp h with hf | hf
      · subst hf
        exact ⟨hg, List.find?_cons_of_pos _ (beq_self_eq_true _)⟩
      · obtain ⟨h1, h2⟩ := ih (seen ++ [g.name]) f hf
        have h1' : f.name ∉ seen ∧ f.name ≠ g.name := by
          constructor
          · intro hc
            exact h1 (List.mem_append.mpr (Or.inl hc))
          · intro hc
            exact h1 (List.mem_append.mpr (Or.inr (by simp [hc])))
        refine ⟨h1'.1, ?_⟩
        have hne : (g.name == f.name) = false := by
          rw [beq_eq_false_iff_ne]
          intro heq
          exact h1'.2 heq.symm
        rw [List.find?_cons_of_neg _ (by simp [hne]), h2]

/-- A directory segment occurrence forces the substring the source
checks for (helper for the collectFiles properties). -/
theorem hasDirSegment_includes (seg path : String) (h : hasDirSegment seg path) :
    jsIncludes path (seg ++ "/") = true := by
  obtain ⟨pre, post, _, hpath⟩ := h
  unfold jsIncludes
  rw [decide_eq_true_eq]
  refine ⟨pre, post, ?_⟩
  rw [hpath]
  have hsplit : (seg ++ "/").toList = seg.toList ++ ['/'] := by
    exact String.data_append seg "/"
  rw [hsplit]
  simp

/-- C7: `collectFiles` never returns a path containing a
`node_modules/` or `.git/` directory segment, and its names are
deduplicated across all patterns with the first occurrence winning:
the result equals the first-occurrence deduplication of the candidate
sequence (pattern order, traversal order within a pattern), and each
returned entry is the first candidate bearing its name. -/
theorem collectFiles_excludes_dedup (m : String → String → Bool)
    (tree : List FileContent) (patterns : List String) :
    (∀ f ∈ collectFiles m tree patterns,
        ¬ hasDirSegment "node_modules" f.name ∧ ¬ hasDirSegment ".git" f.name ∧ f ∈ tree)
      ∧ ((collectFiles m tree patterns).map FileContent.name).Nodup
      ∧ collectFiles m tree patterns = dedupFirst [] (matchedCandidates m tree patterns)
      ∧ ∀ f ∈ collectFiles m tree patterns,
          (matchedCandidates m tree patterns).find? (fun g => g.name == f.name)
            = some f := by
  have heq : collectFiles m tree patterns
      = dedupFirst [] (matchedCandidates m tree patterns) := by
    unfold collectFiles
    rw [collectFilesGo_eq_dedupFirst]
    simp
  have hfirst : ∀ f ∈ collectFiles m tree patterns,
      (matchedCandidates m tree patterns).find? (fun g => g.name == f.name)
        = some f := by
    intro f hf
    rw [heq] at hf
    exact (dedupFirst_find? (matchedCandidates m tree patterns) [] f hf).2
  have hinv : CollectInv tree (collectFilesGo m tree patterns ([], [])) :=
    collectFilesGo_inv m tree patterns ([], []) ⟨rfl, List.nodup_nil, by simp⟩
  obtain ⟨h1, h2, h3⟩ := hinv
  refine ⟨?_, ?_, heq, hfirst⟩
  · intro f hf
    obtain ⟨hex, htree⟩ := h3 f hf
    refine ⟨?_, ?_, htree⟩
    · intro hseg
      have hinc := hasDirSegment_includes _ _ hseg
      rw [show ("node_modules" ++ "/" : String) = "node_modules/" from rfl] at hinc
      unfold excludedPath at hex
      rw [hinc] at hex
      simp at hex
    · intro hseg
      have hinc := hasDirSegment_includes _ _ hseg
      rw [show (".git" ++ "/" : String) = ".git/" from rfl] at hinc
      unfold excludedPath at hex
      rw [hinc] at hex
      simp at hex
  · show ((collectFilesGo m tree patterns ([], [])).2.map FileContent.name).Nodup
    rw [← h1]
    exact h2

/-- Witness for C7: a concrete tree with a `node_modules/` entry and
two patterns matching everything; the entry returned for `src/a.ts` is
the first of the two candidate occurrences. -/
theorem collectFiles_excludes_dedup_witness :
    ¬ hasDirSegment "node_modules" (FileContent.name { name := "src/a.ts", content := "A" })
      ∧ ((collectFiles matchAll treeEx ["p1", "p2"]).map FileContent.name).Nodup
      ∧ collectFiles matchAll treeEx ["p1", "p2"]
          = dedupFirst [] (matchedCandidates matchAll treeEx ["p1", "p2"])
      ∧ (matchedCandidates matchAll treeEx ["p1", "p2"]).find?
          (fun g => g.name == FileContent.name { name := "src/a.ts", content := "A" })
          = some { name := "src/a.ts", content := "A" } := by
  have h := collectFiles_excludes_dedup matchAll treeEx ["p1", "p2"]
  exact ⟨(h.1 { name := "src/a.ts", content := "A" } (by decide)).1, h.2.1, h.2.2.1,
    h.2.2.2 { name := "src/a.ts", content := "A" } (by decide)⟩
